import Mathlib

/-!
Verification development for the probe-run target runner.

We shallowly embed the host-side logic of probe-run: the stack-canary
paint/measure instrumentation (`src/canary.rs`), the RTT mode switch and the
RTT poll loop (`src/main.rs`), the defmt decode loop (`src/main.rs`), and the
backtrace printing policy and outcome-to-exit-code map (`src/backtrace/mod.rs`).

Target RAM is modelled byte-addressed (`Mem`); probe reads truncate to `u8`
(`% 256`) the way `read_8` returns bytes.  The two injected Thumb blobs are
modelled by the loop semantics documented in `src/canary.rs` (the Rust
functions `paint` and `measure` from which the assembly is generated).
Rust panics and `anyhow` errors are both modelled with `Except String`.
-/

namespace ProbeRun

/-- Byte-addressed target RAM. Stored values are normalized on read. -/
abbrev Mem := Nat → Nat

/-- A probe read of one byte (`read_8`): values are `u8`. -/
def readByte (m : Mem) (a : Nat) : Nat := m a % 256

def writeByte (m : Mem) (a v : Nat) : Mem := fun x => if x = a then v else m x

/-- Write a list of bytes at consecutive addresses (`write_8`). -/
def writeBytes : Mem → Nat → List Nat → Mem
  | m, _, [] => m
  | m, a, b :: bs => writeBytes (writeByte m a b) (a + 1) bs

/-- Canary value (`CANARY_U8`). -/
def CANARY_U8 : Nat := 0xAA

/-- Canary value (`CANARY_U32 = u32::from_le_bytes([CANARY_U8; 4])`). -/
def CANARY_U32 : Nat := 0xAAAAAAAA

/-- `u32::to_le_bytes`. -/
def wordLeBytes (w : Nat) : List Nat :=
  [w % 256, w / 256 % 256, w / 65536 % 256, w / 16777216 % 256]

/-- A 32-bit little-endian word read (`read_word_32` / `ldr`). -/
def readWord (m : Mem) (a : Nat) : Nat :=
  readByte m a + 256 * readByte m (a + 1) + 65536 * readByte m (a + 2) +
    16777216 * readByte m (a + 3)

/-- A 32-bit little-endian word write (`stmia r0!, \x7br2\x7d`). -/
def writeWord (m : Mem) (a w : Nat) : Mem := writeBytes m a (wordLeBytes w)

/-- `Iterator::position`: index of the first list element satisfying `p`. -/
def position (p : Nat → Bool) : List Nat → Option Nat
  | [] => none
  | b :: bs => if p b then some 0 else (position p bs).map (· + 1)

/-- The byte buffer obtained by `read_8(a, &mut buf)` with `buf.len() = n`. -/
def bytesAt (m : Mem) (a n : Nat) : List Nat :=
  (List.range n).map (fun i => readByte m (a + i))

/-- Device-side loop of the paint subroutine, as documented in
`src/canary.rs`: `while r0 <= r1 \x7b *r0 = r2; r0 += 4 \x7d` with `r2 = CANARY_U32`. -/
def paintLoop (m : Mem) (r0 high : Nat) : Mem :=
  if r0 ≤ high then paintLoop (writeWord m r0 CANARY_U32) (r0 + 4) high else m
termination_by high + 1 - r0
decreasing_by omega

/-- Device-side loop of the measure subroutine, as documented in
`src/canary.rs`: scan words upward from `r0` while `r0 < r1`; leave in `r0`
the address of the first word differing from the pattern, or `0`. -/
def measureLoop (m : Mem) (r0 high : Nat) : Nat :=
  if r0 < high then
    if readWord m r0 ≠ CANARY_U32 then r0 else measureLoop m (r0 + 4) high
  else 0
termination_by high - r0
decreasing_by omega

namespace paint_subroutine

/-- The 12-byte Thumb blob `paint` (little-endian instruction bytes). -/
def SUBROUTINE : List Nat :=
  [0x88, 0x42, 0x01, 0xd8, 0x04, 0xc0, 0xfb, 0xe7, 0x00, 0xbe, 0x00, 0xbe]

def size : Nat := SUBROUTINE.length

/-- Overwrite the subroutine with the canary value (after it finished). -/
def overwrite_subroutine (m : Mem) (low_addr : Nat) : Mem :=
  writeBytes m low_addr (List.replicate SUBROUTINE.length CANARY_U8)

/-- `paint_subroutine::execute`: write the blob at `low_addr`, run it with
`r0 = low_addr + size`, `r1 = low_addr + stack_size`, `r2 = CANARY_U32`,
then overwrite the blob bytes with the canary value. -/
def execute (m : Mem) (low_addr stack_size : Nat) : Mem :=
  overwrite_subroutine
    (paintLoop (writeBytes m low_addr SUBROUTINE) (low_addr + size)
      (low_addr + stack_size))
    low_addr

end paint_subroutine

namespace measure_subroutine

/-- The 20-byte Thumb blob `measure` (little-endian instruction bytes). -/
def SUBROUTINE : List Nat :=
  [0x88, 0x42, 0x04, 0xd2, 0x03, 0x68, 0x93, 0x42, 0x02, 0xd1, 0x00, 0x1d,
   0xf8, 0xe7, 0x00, 0x20, 0x00, 0xbe, 0x00, 0xbe]

def size : Nat := SUBROUTINE.length

/-- Scan the subroutine-sized window at `low_addr` through the probe for the
first byte differing from the canary value. -/
def search_with_probe (m : Mem) (low_addr : Nat) : Option Nat :=
  (position (fun b => b != CANARY_U8) (bytesAt m low_addr SUBROUTINE.length)).map
    (low_addr + ·)

/-- Read `r0`; `0` means untouched, otherwise read the word at `r0` and add
the index of its lowest byte differing from the canary value (`expect`
panics when every byte matches). -/
def get_result (m : Mem) (r0 : Nat) : Except String (Option Nat) :=
  if r0 = 0 then .ok none
  else
    match position (fun b => b != CANARY_U8) (wordLeBytes (readWord m r0)) with
    | some offset => .ok (some (r0 + offset))
    | none => .error "some byte has to be touched, if `word_addr != 0`"

/-- `measure_subroutine::execute`: probe-scan the subroutine window first;
otherwise write the blob, run it with `r0 = low_addr + size`,
`r1 = low_addr + stack_size`, `r2 = CANARY_U32`, and post-process `r0`.
Also returns the final memory (the blob bytes stay in RAM on this path). -/
def execute (m : Mem) (low_addr stack_size : Nat) :
    Except String (Option Nat × Mem) :=
  match search_with_probe m low_addr with
  | some addr => .ok (some addr, m)
  | none =>
    let m1 := writeBytes m low_addr SUBROUTINE
    match get_result m1 (measureLoop m1 (low_addr + size) (low_addr + stack_size)) with
    | .ok res => .ok (res, m1)
    | .error e => .error e

end measure_subroutine

/-- `target_info::StackInfo`: inclusive stack range plus whether static data
sits below it. -/
structure StackInfo where
  start : Nat
  stop : Nat
  data_below_stack : Bool
deriving DecidableEq

/-- `canary::Canary`. -/
structure Canary where
  addr : Nat
  data_below_stack : Bool
  size : Nat
  size_kb : ℚ
deriving DecidableEq

namespace Canary

/-- `Canary::assert_subroutines`: panic (modelled as `.error`) unless the
stack base and size are 4-byte aligned; return `none` when a subroutine does
not fit in the stack. -/
def assert_subroutines (stack_addr stack_size : Nat) : Except String (Option Unit) :=
  if stack_addr % 4 ≠ 0 then .error "low_addr needs to be 4-byte-aligned"
  else if stack_size % 4 ≠ 0 then .error "stack_size needs to be 4-byte-aligned"
  else if paint_subroutine.size % 4 ≠ 0 then
    .error "paint subroutine needs to be 4-byte-aligned"
  else if measure_subroutine.size % 4 ≠ 0 then
    .error "measure subroutine needs to be 4-byte-aligned"
  else if stack_size < paint_subroutine.size ∨ stack_size < measure_subroutine.size then
    .ok none
  else .ok (some ())

/-- `Canary::prepare`: `none` when the stack range is unknown or the heap is
in use; then the alignment asserts; `none` when the subroutines do not fit. -/
def prepare (uses_heap : Bool) (stack_info : Option StackInfo) :
    Except String (Option Canary) :=
  match stack_info with
  | none => .ok none
  | some si =>
    if uses_heap then .ok none
    else
      let stack_addr := si.start
      let stack_size := si.stop - si.start
      match assert_subroutines stack_addr stack_size with
      | .error e => .error e
      | .ok none => .ok none
      | .ok (some _) =>
        .ok (some ⟨stack_addr, si.data_below_stack, stack_size, (stack_size : ℚ) / 1024⟩)

/-- `Canary::install`: prepare, then paint the stack. -/
def install (m : Mem) (uses_heap : Bool) (stack_info : Option StackInfo) :
    Except String (Option Canary × Mem) :=
  match prepare uses_heap stack_info with
  | .error e => .error e
  | .ok none => .ok (none, m)
  | .ok (some c) => .ok (some c, paint_subroutine.execute m c.addr c.size)

end Canary

/-- Outcome of `Canary::measure`: the returned `bool` (overflow likely) and
whether the `> 90%` warning branch was taken. -/
structure MeasureReport where
  overflow_likely : Bool
  warned : Bool
deriving DecidableEq

/-- `min_stack_usage` as computed in `Canary::measure`. -/
def stackUsage (initial_stack_pointer : Nat) : Option Nat → Nat
  | some touched_address => initial_stack_pointer - touched_address
  | none => 0

/-- `pct = used_kb / size_kb * 100` as computed in `Canary::measure`
(`f64` arithmetic modelled exactly over `ℚ`). -/
def stackPct (c : Canary) (min_stack_usage : Nat) : ℚ :=
  (min_stack_usage : ℚ) / 1024 / c.size_kb * 100

/-- `Canary::measure`: run the measure subroutine, convert the touched
address into a usage percentage, warn and return `true` on `pct > 90`. -/
def Canary.measure (c : Canary) (initial_stack_pointer : Nat) (m : Mem) :
    Except String MeasureReport :=
  match measure_subroutine.execute m c.addr c.size with
  | .error e => .error e
  | .ok (touched_address, _) =>
    let min_stack_usage := stackUsage initial_stack_pointer touched_address
    let pct := stackPct c min_stack_usage
    if pct > 90 then .ok ⟨true, true⟩ else .ok ⟨false, false⟩

/-- `backtrace::Outcome`. -/
inductive Outcome where
  | HardFault
  | Ok
  | StackOverflow
  | CtrlC
deriving DecidableEq

/-- `signal_hook::consts::signal::SIGABRT` (Linux). -/
def SIGABRT : Int := 6

/-- `signal_hook::consts::signal::SIGINT` (Linux). -/
def SIGINT : Int := 2

/-- `impl From<Outcome> for i32` in `src/backtrace/mod.rs`. -/
def outcomeToExitCode : Outcome → Int
  | .HardFault | .StackOverflow => SIGABRT
  | .CtrlC => SIGINT
  | .Ok => 0

/-- `backtrace::BacktraceOptions`. -/
inductive BacktraceOptions where
  | Auto
  | Never
  | Always
deriving DecidableEq

/-- `backtrace::Settings` (the fields used by the printing decision). -/
structure Settings where
  backtrace_limit : Nat
  backtrace : BacktraceOptions
  halted_due_to_signal : Bool
  include_addresses : Bool
  shorten_paths : Bool
  stack_overflow : Bool

/-- `Settings::panic_present`. -/
def Settings.panic_present (s : Settings) : Bool :=
  s.stack_overflow || s.halted_due_to_signal

/-- A raw unwinder frame: a regular function frame or an exception marker. -/
inductive RawFrame where
  | Function (pc : Nat)
  | Exception (kind : Nat)

/-- `RawFrame::is_exception`. -/
def RawFrame.is_exception : RawFrame → Bool
  | .Function _ => false
  | .Exception _ => true

/-- The `print_backtrace` decision of `backtrace::print`
(`src/backtrace/mod.rs:78-92`). -/
def printBacktraceDecision (s : Settings) (outcome : Outcome) (corrupted : Bool)
    (raw_frames : List RawFrame) : Bool :=
  match s.backtrace with
  | .Never => false
  | .Always => true
  | .Auto =>
    s.panic_present || decide (outcome = .StackOverflow) || corrupted ||
      raw_frames.any (·.is_exception)

/-- One iteration's inputs to the poll loop in `extract_and_print_logs`:
the SIGINT flag sampled at the top of the iteration, whether the RTT read
(or a fatal decode) failed, and the `core_halted()` result. -/
structure PollObs where
  exitFlag : Bool
  rttError : Bool
  halted : Bool
deriving DecidableEq

/-- How the poll loop in `extract_and_print_logs` ended. -/
inductive PollExit where
  | sigint
  | rttError
  | doubleHalt
deriving DecidableEq

/-- The poll loop of `extract_and_print_logs` (`src/main.rs:394-440`) run on a
finite prefix of observations: `none` means the loop was still running after
consuming them; `some (i, e)` means it exited at iteration `i` for reason `e`.
`was_halted` starts `false`; the double-halt break requires `!using_gdb`. -/
def pollLoop (using_gdb was_halted : Bool) : List PollObs → Option (Nat × PollExit)
  | [] => none
  | o :: rest =>
    if o.exitFlag then some (0, .sigint)
    else if o.rttError then some (0, .rttError)
    else if o.halted && was_halted && !using_gdb then some (0, .doubleHalt)
    else (pollLoop using_gdb o.halted rest).map (fun p => (p.1 + 1, p.2))

/-- `true` iff two consecutive observations report the core halted. -/
def hasConsecutiveHalt : List PollObs → Bool
  | a :: b :: rest => (a.halted && b.halted) || hasConsecutiveHalt (b :: rest)
  | _ => false

/-- One `decode()` step of the stream decoder. -/
inductive DecodeResult where
  | frame (f : Nat)
  | eof
  | malformed
deriving DecidableEq

/-- `decode_and_print_defmt_logs` (`src/main.rs:460-481`) over the sequence of
decoder results: collect the frames forwarded to the logger until
`UnexpectedEof`; on `Malformed`, continue iff the encoding can recover,
otherwise propagate the error. -/
def decodeAndPrintDefmtLogs (encoding_can_recover : Bool) :
    List DecodeResult → Except String (List Nat)
  | [] => .ok []
  | .frame f :: rest =>
    (decodeAndPrintDefmtLogs encoding_can_recover rest).map (f :: ·)
  | .eof :: _ => .ok []
  | .malformed :: rest =>
    if encoding_can_recover then decodeAndPrintDefmtLogs encoding_can_recover rest
    else .error "failed to decode defmt data"

/-- The frames the decoder yields before the first `UnexpectedEof`. -/
def framesBeforeEof (rs : List DecodeResult) : List Nat :=
  (rs.takeWhile (fun r => r ≠ DecodeResult.eof)).filterMap
    (fun r => match r with | .frame f => some f | _ => none)

/-- `true` iff a `Malformed` result occurs before the first `UnexpectedEof`. -/
def malformedBeforeEof (rs : List DecodeResult) : Bool :=
  (rs.takeWhile (fun r => r ≠ DecodeResult.eof)).any
    (fun r => r = DecodeResult.malformed)

/-- The probe core state used by `set_rtt_to_blocking`: 32-bit words of
target RAM (by byte address) and the installed hardware breakpoints. -/
structure RttCore where
  mem : Nat → Nat
  bps : List Nat

/-- Probe operations issued by `set_rtt_to_blocking`, in order. -/
inductive RttOp where
  | setBp (a : Nat)
  | run
  | waitHalted
  | readWord (a v : Nat)
  | writeWord (a v : Nat)
  | clearBp (a : Nat)
deriving DecidableEq

/-- Offset of the up-channel flags word inside the RTT control block. -/
def RTT_FLAGS_OFFSET : Nat := 44

def MODE_MASK : Nat := 0b11

def MODE_BLOCK_IF_FULL : Nat := 0b10

/-- `set_rtt_to_blocking` (`src/main.rs:317-345`): breakpoint on `main`, run
to it, read the up-channel flags at `rtt_buffer_address + 44`, write them
back with the low two bits set to block-if-full, clear the breakpoint.
Returns the final core state and the ordered trace of probe operations. -/
def setRttToBlocking (core : RttCore) (main_fn_address rtt_buffer_address : Nat) :
    RttCore × List RttOp :=
  let c1 : RttCore := { core with bps := main_fn_address :: core.bps }
  let flags_addr := rtt_buffer_address + RTT_FLAGS_OFFSET
  let channel_flags := c1.mem flags_addr % 2 ^ 32
  let modified_channel_flags := (channel_flags &&& (2 ^ 32 - 1 - MODE_MASK)) ||| MODE_BLOCK_IF_FULL
  let c2 : RttCore :=
    { c1 with mem := fun x => if x = flags_addr then modified_channel_flags else c1.mem x }
  let c3 : RttCore := { c2 with bps := c2.bps.erase main_fn_address }
  (c3,
    [.setBp main_fn_address, .run, .waitHalted, .readWord flags_addr channel_flags,
     .writeWord flags_addr modified_channel_flags, .clearBp main_fn_address])

/-- The guard at `src/main.rs:130-133`: requesting `--measure-stack` while
canary installation returned `None` is a fatal error. -/
def measureStackGate (measure_stack : Bool) (canary : Option Canary) :
    Except String (Option Canary) :=
  if measure_stack && canary.isNone then .error "failed to set up stack measurement"
  else .ok canary

/-- All-zero RAM (every byte reads as `0`). -/
def mem0 : Mem := fun _ => 0

/-- Fully painted RAM (every byte reads as the canary value). -/
def memAA : Mem := fun _ => CANARY_U8

/-! ### Basic lemmas about the memory model -/

lemma writeBytes_out (bs : List Nat) :
    ∀ (m : Mem) (a x : Nat), x < a ∨ a + bs.length ≤ x → writeBytes m a bs x = m x := by
  induction bs with
  | nil => intro m a x _; rfl
  | cons b bs ih =>
    intro m a x h
    show writeBytes (writeByte m a b) (a + 1) bs x = m x
    rw [ih (writeByte m a b) (a + 1) x (by simp at h; omega)]
    simp only [writeByte]
    rw [if_neg (by simp at h; omega)]

lemma writeBytes_in (bs : List Nat) :
    ∀ (m : Mem) (a i : Nat), i < bs.length → writeBytes m a bs (a + i) = bs.getD i 0 := by
  induction bs with
  | nil => intro m a i hi; simp at hi
  | cons b bs ih =>
    intro m a i hi
    show writeBytes (writeByte m a b) (a + 1) bs (a + i) = (b :: bs).getD i 0
    cases i with
    | zero =>
      rw [writeBytes_out bs _ _ _ (Or.inl (by omega))]
      simp [writeByte]
    | succ j =>
      have hj : j < bs.length := by simpa using hi
      have := ih (writeByte m a b) (a + 1) j hj
      rw [show a + (j + 1) = a + 1 + j by omega, this]
      simp

lemma readByte_lt (m : Mem) (a : Nat) : readByte m a < 256 :=
  Nat.mod_lt _ (by omega)

lemma readWord_eq_canary_iff (m : Mem) (a : Nat) :
    readWord m a = CANARY_U32 ↔
      readByte m a = CANARY_U8 ∧ readByte m (a + 1) = CANARY_U8 ∧
        readByte m (a + 2) = CANARY_U8 ∧ readByte m (a + 3) = CANARY_U8 := by
  have h0 := readByte_lt m a
  have h1 := readByte_lt m (a + 1)
  have h2 := readByte_lt m (a + 2)
  have h3 := readByte_lt m (a + 3)
  unfold readWord CANARY_U32 CANARY_U8
  omega

lemma wordLeBytes_readWord (m : Mem) (a : Nat) :
    wordLeBytes (readWord m a) =
      [readByte m a, readByte m (a + 1), readByte m (a + 2), readByte m (a + 3)] := by
  have h0 := readByte_lt m a
  have h1 := readByte_lt m (a + 1)
  have h2 := readByte_lt m (a + 2)
  have h3 := readByte_lt m (a + 3)
  simp only [wordLeBytes, readWord, List.cons.injEq, and_true]
  refine ⟨?_, ?_, ?_, ?_⟩ <;> omega

lemma position_eq_none_iff (p : Nat → Bool) (l : List Nat) :
    position p l = none ↔ ∀ b ∈ l, p b = false := by
  induction l with
  | nil => simp [position]
  | cons b bs ih =>
    by_cases hp : p b <;> simp [position, hp, Option.map_eq_none, ih]

lemma position_eq_some (p : Nat → Bool) :
    ∀ (l : List Nat) (i : Nat), position p l = some i →
      i < l.length ∧ p (l.getD i 0) = true ∧ ∀ j < i, p (l.getD j 0) = false := by
  intro l
  induction l with
  | nil => intro i h; simp [position] at h
  | cons b bs ih =>
    intro i h
    by_cases hp : p b
    · simp [position, hp] at h
      subst h
      simpa using hp
    · simp [position, hp, Option.map_eq_some] at h
      obtain ⟨k, hk, rfl⟩ := h
      obtain ⟨hlen, hpk, hleast⟩ := ih k hk
      refine ⟨by simpa using hlen, by simpa using hpk, ?_⟩
      intro j hj
      cases j with
      | zero => simpa using hp
      | succ j0 => simpa using hleast j0 (by omega)

lemma position_eq_some_of (p : Nat → Bool) :
    ∀ (l : List Nat) (i : Nat), i < l.length → p (l.getD i 0) = true →
      (∀ j < i, p (l.getD j 0) = false) → position p l = some i := by
  intro l
  induction l with
  | nil => intro i hi; simp at hi
  | cons b bs ih =>
    intro i hi hp hleast
    cases i with
    | zero => simp [position, show p b = true by simpa using hp]
    | succ j =>
      have hb : p b = false := by simpa using hleast 0 (by omega)
      have := ih j (by simpa using hi) (by simpa using hp)
        (fun j0 hj0 => by simpa using hleast (j0 + 1) (by omega))
      simp [position, hb, this]

lemma bytesAt_length (m : Mem) (a n : Nat) : (bytesAt m a n).length = n := by
  simp [bytesAt]

lemma bytesAt_getD (m : Mem) (a n i : Nat) (hi : i < n) :
    (bytesAt m a n).getD i 0 = readByte m (a + i) := by
  simp [bytesAt, List.getD, List.getElem?_map, List.getElem?_range, hi]

lemma replicate_getD (b : Nat) : ∀ (n i : Nat), i < n → (List.replicate n b).getD i 0 = b := by
  intro n
  induction n with
  | zero => intro i hi; omega
  | succ k ih =>
    intro i hi
    cases i with
    | zero => simp
    | succ j =>
      rw [List.replicate_succ, List.getD_cons_succ]
      exact ih j (by omega)

/-! ### The paint and measure loops -/

lemma paintLoop_below :
    ∀ (n : Nat) (m : Mem) (r0 high x : Nat), high + 1 - r0 ≤ n → x < r0 →
      paintLoop m r0 high x = m x := by
  intro n
  induction n with
  | zero =>
    intro m r0 high x hn hx
    rw [paintLoop, if_neg (by omega)]
  | succ k ih =>
    intro m r0 high x hn hx
    rw [paintLoop]
    by_cases h : r0 ≤ high
    · rw [if_pos h, ih _ _ _ _ (by omega) (by omega)]
      exact writeBytes_out _ _ _ _ (Or.inl hx)
    · rw [if_neg h]

lemma paintLoop_covers :
    ∀ (n : Nat) (m : Mem) (r0 high x : Nat), high + 1 - r0 ≤ n → r0 ≤ x → x ≤ high →
      paintLoop m r0 high x = CANARY_U8 := by
  intro n
  induction n with
  | zero => intro m r0 high x hn hx hxh; omega
  | succ k ih =>
    intro m r0 high x hn hx hxh
    rw [paintLoop, if_pos (by omega)]
    by_cases h4 : r0 + 4 ≤ x
    · exact ih _ _ _ _ (by omega) h4 hxh
    · rw [paintLoop_below (high + 1 - (r0 + 4)) _ _ _ _ (le_refl _) (by omega)]
      show writeBytes m r0 (wordLeBytes CANARY_U32) x = CANARY_U8
      have hlist : wordLeBytes CANARY_U32 = List.replicate 4 CANARY_U8 := by decide
      rw [show x = r0 + (x - r0) by omega, hlist,
        writeBytes_in _ _ _ _ (by simp; omega)]
      exact replicate_getD _ _ _ (by omega)

lemma measureLoop_eq_zero_iff :
    ∀ (n : Nat) (m : Mem) (r0 high : Nat), high - r0 ≤ n → 0 < r0 →
      (measureLoop m r0 high = 0 ↔
        ∀ kk, r0 + 4 * kk < high → readWord m (r0 + 4 * kk) = CANARY_U32) := by
  intro n
  induction n with
  | zero =>
    intro m r0 high hn h0
    rw [measureLoop, if_neg (by omega)]
    simp only [true_iff]
    intro kk hk; omega
  | succ k ih =>
    intro m r0 high hn h0
    by_cases h : r0 < high
    · rw [measureLoop, if_pos h]
      by_cases hw : readWord m r0 ≠ CANARY_U32
      · rw [if_pos hw]
        constructor
        · intro hr0; omega
        · intro hall
          exact absurd (hall 0 (by omega)) (by simpa using hw)
      · rw [if_neg hw]
        push_neg at hw
        rw [ih m (r0 + 4) high (by omega) (by omega)]
        constructor
        · intro hall kk hk
          match kk with
          | 0 => simpa using hw
          | j + 1 =>
            have := hall j (by omega)
            rw [show r0 + 4 * (j + 1) = r0 + 4 + 4 * j by omega]
            exact this
        · intro hall kk hk
          have := hall (kk + 1) (by omega)
          rw [show r0 + 4 * (kk + 1) = r0 + 4 + 4 * kk by omega] at this
          exact this
    · rw [measureLoop, if_neg h]
      simp only [true_iff]
      intro kk hk; omega

lemma measureLoop_cases :
    ∀ (n : Nat) (m : Mem) (r0 high : Nat), high - r0 ≤ n →
      measureLoop m r0 high = 0 ∨
        ∃ kk, measureLoop m r0 high = r0 + 4 * kk ∧ r0 + 4 * kk < high ∧
          readWord m (r0 + 4 * kk) ≠ CANARY_U32 := by
  intro n
  induction n with
  | zero =>
    intro m r0 high hn
    left
    rw [measureLoop, if_neg (by omega)]
  | succ k ih =>
    intro m r0 high hn
    by_cases h : r0 < high
    · rw [measureLoop, if_pos h]
      by_cases hw : readWord m r0 ≠ CANARY_U32
      · rw [if_pos hw]
        exact Or.inr ⟨0, by omega, by omega, by simpa using hw⟩
      · rw [if_neg hw]
        rcases ih m (r0 + 4) high (by omega) with h0 | ⟨kk, heq, hlt, hne⟩
        · exact Or.inl h0
        · refine Or.inr ⟨kk + 1, ?_, by omega, ?_⟩
          · rw [show r0 + 4 * (kk + 1) = r0 + 4 + 4 * kk by omega]; exact heq
          · rw [show r0 + 4 * (kk + 1) = r0 + 4 + 4 * kk by omega]; exact hne
    · left
      rw [measureLoop, if_neg h]

/-! ### Poll-loop lemmas -/

lemma pollLoop_cons (gdb w : Bool) (o : PollObs) (rest : List PollObs) :
    pollLoop gdb w (o :: rest) =
      if o.exitFlag = true then some (0, .sigint)
      else if o.rttError = true then some (0, .rttError)
      else if (o.halted && w && !gdb) = true then some (0, .doubleHalt)
      else (pollLoop gdb o.halted rest).map (fun p => (p.1 + 1, p.2)) := by
  simp [pollLoop]

lemma pollLoop_head_halted (b : PollObs) (rest : List PollObs)
    (hb : b.halted = true) :
    pollLoop false true (b :: rest) ≠ none := by
  rw [pollLoop_cons]
  by_cases h1 : b.exitFlag = true
  · simp [h1]
  · by_cases h2 : b.rttError = true
    · simp [h1, h2]
    · simp [h1, h2, hb]

lemma pollLoop_exitFlag_terminates (obs : List PollObs) :
    ∀ (gdb w : Bool), obs.any (fun o => o.exitFlag) = true →
      pollLoop gdb w obs ≠ none := by
  induction obs with
  | nil => intro gdb w h; simp at h
  | cons o rest ih =>
    intro gdb w h
    rw [pollLoop_cons]
    by_cases h1 : o.exitFlag = true
    · simp [h1]
    by_cases h2 : o.rttError = true
    · simp [h1, h2]
    by_cases h3 : (o.halted && w && !gdb) = true
    · rw [if_neg h1, if_neg h2, if_pos h3]
      simp
    rw [if_neg h1, if_neg h2, if_neg h3, Ne, Option.map_eq_none']
    exact ih gdb o.halted (by simpa [h1] using h)

lemma pollLoop_terminates (obs : List PollObs) :
    ∀ w : Bool, (obs.any (fun o => o.exitFlag) = true ∨ hasConsecutiveHalt obs = true) →
      pollLoop false w obs ≠ none := by
  induction obs with
  | nil => intro w h; simp [hasConsecutiveHalt] at h
  | cons o rest ih =>
    intro w h
    rw [pollLoop_cons]
    by_cases h1 : o.exitFlag = true
    · simp [h1]
    by_cases h2 : o.rttError = true
    · simp [h1, h2]
    by_cases h3 : (o.halted && w && !false) = true
    · rw [if_neg h1, if_neg h2, if_pos h3]
      simp
    rw [if_neg h1, if_neg h2, if_neg h3, Ne, Option.map_eq_none']
    cases rest with
    | nil =>
      exfalso
      rcases h with ha | hc
      · simp [h1] at ha
      · simp [hasConsecutiveHalt] at hc
    | cons b r2 =>
      by_cases hcons : o.halted = true ∧ b.halted = true
      · rw [hcons.1]
        exact pollLoop_head_halted b r2 hcons.2
      · apply ih
        rcases h with ha | hc
        · left; simpa [h1] using ha
        · right
          have hc2 : (o.halted = true ∧ b.halted = true) ∨
              hasConsecutiveHalt (b :: r2) = true := by
            have : hasConsecutiveHalt (o :: b :: r2) =
                ((o.halted && b.halted) || hasConsecutiveHalt (b :: r2)) := rfl
            rw [this] at hc
            simpa using hc
          rcases hc2 with hc2 | hc2
          · exact absurd hc2 hcons
          · exact hc2

lemma pollLoop_doubleHalt_shape (obs : List PollObs) :
    ∀ (gdb w : Bool) (i : Nat), pollLoop gdb w obs = some (i, .doubleHalt) →
      i < obs.length ∧ (obs.getD i ⟨false, false, false⟩).halted = true ∧
        (i = 0 → w = true) ∧
        (0 < i → (obs.getD (i - 1) ⟨false, false, false⟩).halted = true) := by
  induction obs with
  | nil => intro gdb w i h; simp [pollLoop] at h
  | cons o rest ih =>
    intro gdb w i h
    rw [pollLoop_cons] at h
    by_cases h1 : o.exitFlag = true
    · simp [h1] at h
    by_cases h2 : o.rttError = true
    · simp [h1, h2] at h
    by_cases h3 : (o.halted && w && !gdb) = true
    · rw [if_neg h1, if_neg h2, if_pos h3] at h
      have hi : i = 0 := by
        simp only [Option.some.injEq, Prod.mk.injEq] at h
        exact h.1.symm
      subst hi
      have ho : o.halted = true := by revert h3; cases o.halted <;> simp
      have hw : w = true := by revert h3; cases w <;> cases o.halted <;> simp
      exact ⟨by simp, by simpa using ho, fun _ => hw, fun h0 => absurd h0 (by omega)⟩
    · rw [if_neg h1, if_neg h2, if_neg h3, Option.map_eq_some'] at h
      obtain ⟨⟨j, e⟩, hj, hpair⟩ := h
      have hji : j + 1 = i := ((Prod.mk.injEq _ _ _ _).mp hpair).1
      have he : e = .doubleHalt := ((Prod.mk.injEq _ _ _ _).mp hpair).2
      subst he
      obtain ⟨hlen, hhj, hzero, hpred⟩ := ih gdb o.halted j hj
      subst hji
      refine ⟨by simpa using Nat.succ_lt_succ hlen, by simpa using hhj,
        fun habs => absurd habs (by omega), ?_⟩
      intro _
      simp only [Nat.add_sub_cancel]
      cases j with
      | zero => simpa using hzero rfl
      | succ j0 =>
        have := hpred (by omega)
        simpa using this

/-! ### Claim theorems -/

/-- Claim C3 (amended): when no GDB server is in use, the poll loop of
`extract_and_print_logs` terminates whenever the SIGINT flag is set at some
iteration or two consecutive iterations observe the core halted; and (for
either GDB mode) an exit through the double-halt break can only happen at an
iteration `i ≥ 1` whose own poll and whose preceding poll both observed the
core halted — a single halted observation never exits the loop. -/
theorem c3_poll_loop_exit (obs : List PollObs) :
    (∀ gdb : Bool,
      (obs.any (fun o => o.exitFlag) = true ∨
        (gdb = false ∧ hasConsecutiveHalt obs = true)) →
      pollLoop gdb false obs ≠ none) ∧
    (∀ (gdb : Bool) (i : Nat), pollLoop gdb false obs = some (i, .doubleHalt) →
      0 < i ∧ i < obs.length ∧
        (obs.getD i ⟨false, false, false⟩).halted = true ∧
        (obs.getD (i - 1) ⟨false, false, false⟩).halted = true) := by
  constructor
  · rintro gdb (hany | ⟨rfl, hcons⟩)
    · exact pollLoop_exitFlag_terminates obs gdb false hany
    · exact pollLoop_terminates obs false (Or.inr hcons)
  · intro gdb i h
    obtain ⟨hlen, hhi, hzero, hpred⟩ := pollLoop_doubleHalt_shape obs gdb false i h
    have hi0 : 0 < i := by
      rcases Nat.eq_zero_or_pos i with h0 | h0
      · exact absurd (hzero h0) (by simp)
      · exact h0
    exact ⟨hi0, hlen, hhi, hpred hi0⟩

/-- Claim C3 counterexample: with a GDB server in use (`using_gdb = true`),
two consecutive halted observations — with the SIGINT flag never set and no
RTT error — do not make the poll loop exit, contradicting the claim that the
loop terminates whenever two consecutive iterations observe the core
halted. -/
theorem c3_counterexample :
    pollLoop true false [⟨false, false, true⟩, ⟨false, false, true⟩] = none ∧
    hasConsecutiveHalt [⟨false, false, true⟩, ⟨false, false, true⟩] = true ∧
    List.any [(⟨false, false, true⟩ : PollObs), ⟨false, false, true⟩]
      (fun o => o.exitFlag) = false := by
  refine ⟨rfl, rfl, rfl⟩

/-- Witness for C3 at a concrete input: a single observation with the SIGINT
flag set makes the loop exit. -/
theorem c3_witness :
    pollLoop false false [⟨true, false, false⟩] ≠ none :=
  (c3_poll_loop_exit [⟨true, false, false⟩]).1 false (Or.inl rfl)

/-- Claim C2: the exit code is a function of the outcome — `Ok ↦ 0`,
`HardFault` and `StackOverflow ↦ SIGABRT`, `CtrlC ↦ SIGINT` — and the exit
code is `0` exactly when the outcome is `Ok`. -/
theorem c2_exit_codes :
    (outcomeToExitCode .Ok = 0 ∧ outcomeToExitCode .HardFault = SIGABRT ∧
      outcomeToExitCode .StackOverflow = SIGABRT ∧ outcomeToExitCode .CtrlC = SIGINT) ∧
    ∀ o : Outcome, outcomeToExitCode o = 0 ↔ o = .Ok := by
  refine ⟨⟨rfl, rfl, rfl, rfl⟩, ?_⟩
  intro o
  cases o <;> simp [outcomeToExitCode, SIGABRT, SIGINT]

/-- Claim C9: the backtrace-printing decision is `false` under `never`,
`true` under `always`, and under `auto` it is `true` exactly when a stack
overflow was detected (the canary-derived `stack_overflow` flag or the
unwinder outcome `StackOverflow`), the halt was due to the SIGINT signal,
the unwind was corrupted, or some raw frame is an exception frame. -/
theorem c9_backtrace_policy (s : Settings) (outcome : Outcome) (corrupted : Bool)
    (raw_frames : List RawFrame) :
    (s.backtrace = .Never → printBacktraceDecision s outcome corrupted raw_frames = false) ∧
    (s.backtrace = .Always → printBacktraceDecision s outcome corrupted raw_frames = true) ∧
    (s.backtrace = .Auto →
      (printBacktraceDecision s outcome corrupted raw_frames = true ↔
        ((s.stack_overflow = true ∨ outcome = .StackOverflow) ∨
          s.halted_due_to_signal = true ∨ corrupted = true ∨
            ∃ f ∈ raw_frames, f.is_exception = true))) := by
  refine ⟨fun h => by simp [printBacktraceDecision, h], fun h => by
    simp [printBacktraceDecision, h], fun h => ?_⟩
  simp only [printBacktraceDecision, h, Settings.panic_present, Bool.or_eq_true,
    decide_eq_true_eq, List.any_eq_true]
  tauto

/-- Witness for C9 at a concrete input: with `--backtrace=auto` and the
stack-overflow flag set, the backtrace is printed. -/
theorem c9_witness :
    printBacktraceDecision ⟨50, .Auto, false, false, false, true⟩ .Ok false [] = true :=
  ((c9_backtrace_policy ⟨50, .Auto, false, false, false, true⟩ .Ok false []).2.2
    rfl).mpr (Or.inl (Or.inl rfl))

lemma framesBeforeEof_cons_frame (f : Nat) (rest : List DecodeResult) :
    framesBeforeEof (.frame f :: rest) = f :: framesBeforeEof rest := rfl

lemma framesBeforeEof_cons_eof (rest : List DecodeResult) :
    framesBeforeEof (.eof :: rest) = [] := rfl

lemma framesBeforeEof_cons_malformed (rest : List DecodeResult) :
    framesBeforeEof (.malformed :: rest) = framesBeforeEof rest := rfl

lemma malformedBeforeEof_cons_frame (f : Nat) (rest : List DecodeResult) :
    malformedBeforeEof (.frame f :: rest) = malformedBeforeEof rest := rfl

lemma malformedBeforeEof_cons_eof (rest : List DecodeResult) :
    malformedBeforeEof (.eof :: rest) = false := rfl

lemma malformedBeforeEof_cons_malformed (rest : List DecodeResult) :
    malformedBeforeEof (.malformed :: rest) = true := rfl

/-- Claim C8: the decode loop forwards exactly the frames preceding the
first `UnexpectedEof`; a `Malformed` result is skipped when the encoding can
recover and otherwise propagates a fatal error. -/
theorem c8_decode_loop (r : Bool) (rs : List DecodeResult) :
    (r = true → decodeAndPrintDefmtLogs r rs = .ok (framesBeforeEof rs)) ∧
    (r = false → malformedBeforeEof rs = true →
      ∃ e, decodeAndPrintDefmtLogs r rs = .error e) ∧
    (r = false → malformedBeforeEof rs = false →
      decodeAndPrintDefmtLogs r rs = .ok (framesBeforeEof rs)) := by
  induction rs with
  | nil =>
    refine ⟨fun _ => rfl, fun _ h => by simp [malformedBeforeEof] at h, fun _ _ => rfl⟩
  | cons d rest ih =>
    obtain ⟨ih1, ih2, ih3⟩ := ih
    cases d with
    | frame f =>
      refine ⟨fun hr => ?_, fun hr hm => ?_, fun hr hm => ?_⟩
      · show (decodeAndPrintDefmtLogs r rest).map (f :: ·) = _
        rw [ih1 hr, framesBeforeEof_cons_frame]
        rfl
      · rw [malformedBeforeEof_cons_frame] at hm
        obtain ⟨e, he⟩ := ih2 hr hm
        refine ⟨e, ?_⟩
        show (decodeAndPrintDefmtLogs r rest).map (f :: ·) = _
        rw [he]
        rfl
      · rw [malformedBeforeEof_cons_frame] at hm
        show (decodeAndPrintDefmtLogs r rest).map (f :: ·) = _
        rw [ih3 hr hm, framesBeforeEof_cons_frame]
        rfl
    | eof =>
      refine ⟨fun _ => rfl, fun _ hm => ?_, fun _ _ => rfl⟩
      rw [malformedBeforeEof_cons_eof] at hm
      exact absurd hm (by simp)
    | malformed =>
      refine ⟨fun hr => ?_, fun hr _ => ?_, fun hr hm => ?_⟩
      · show (if r = true then decodeAndPrintDefmtLogs r rest
          else .error "failed to decode defmt data") = _
        rw [if_pos hr, ih1 hr, framesBeforeEof_cons_malformed]
      · subst hr
        exact ⟨"failed to decode defmt data", rfl⟩
      · rw [malformedBeforeEof_cons_malformed] at hm
        exact absurd hm (by simp)

/-- Witness for C8 at a concrete input: one good frame followed by
end-of-input on a recoverable encoding is drained as `[7]`. -/
theorem c8_witness :
    decodeAndPrintDefmtLogs true [.frame 7, .eof] =
      .ok (framesBeforeEof [.frame 7, .eof]) :=
  (c8_decode_loop true [.frame 7, .eof]).1 rfl

/-! ### Canary installation lemmas -/

lemma assert_subroutines_of_aligned (a s : Nat) (ha : a % 4 = 0) (hs : s % 4 = 0) :
    Canary.assert_subroutines a s =
      if s < paint_subroutine.size ∨ s < measure_subroutine.size then .ok none
      else .ok (some ()) := by
  unfold Canary.assert_subroutines
  rw [if_neg (by omega), if_neg (by omega), if_neg (by decide), if_neg (by decide)]

lemma assert_subroutines_misaligned (a s : Nat) (h : a % 4 ≠ 0 ∨ s % 4 ≠ 0) :
    ∃ e, Canary.assert_subroutines a s = .error e := by
  unfold Canary.assert_subroutines
  by_cases ha : a % 4 ≠ 0
  · exact ⟨_, by rw [if_pos ha]⟩
  · have hs : s % 4 ≠ 0 := by tauto
    exact ⟨_, by rw [if_neg ha, if_pos hs]⟩

lemma assert_subroutines_ok_some (a s : Nat) (u : Unit)
    (h : Canary.assert_subroutines a s = .ok (some u)) :
    a % 4 = 0 ∧ s % 4 = 0 := by
  by_cases ha : a % 4 = 0
  · by_cases hs : s % 4 = 0
    · exact ⟨ha, hs⟩
    · unfold Canary.assert_subroutines at h
      rw [if_neg (by omega), if_pos hs] at h
      exact absurd h (by simp)
  · unfold Canary.assert_subroutines at h
    rw [if_pos ha] at h
    exact absurd h (by simp)

lemma prepare_aligned_eq (si : StackInfo) (ha : si.start % 4 = 0)
    (hs : (si.stop - si.start) % 4 = 0) :
    Canary.prepare false (some si) =
      if si.stop - si.start < paint_subroutine.size ∨
          si.stop - si.start < measure_subroutine.size then .ok none
      else .ok (some ⟨si.start, si.data_below_stack, si.stop - si.start,
        ((si.stop - si.start : Nat) : ℚ) / 1024⟩) := by
  show (match Canary.assert_subroutines si.start (si.stop - si.start) with
    | Except.error e => Except.error e
    | Except.ok none => Except.ok none
    | Except.ok (some _) => Except.ok (some (Canary.mk si.start si.data_below_stack
        (si.stop - si.start) (((si.stop - si.start : Nat) : ℚ) / 1024)))) = _
  rw [assert_subroutines_of_aligned _ _ ha hs]
  by_cases h : si.stop - si.start < paint_subroutine.size ∨
      si.stop - si.start < measure_subroutine.size
  · rw [if_pos h, if_pos h]
  · rw [if_neg h, if_neg h]

/-- Claim C4: canary installation returns `None` exactly when the stack
region is unknown, the program uses the heap, or the stack is smaller than
the larger of the two instrumentation subroutines (assuming the 4-byte
alignment the installer asserts); and the controller treats
`--measure-stack` with a `None` canary as a fatal error. -/
theorem c4_install_none_iff (m : Mem) (uses_heap : Bool) (stack_info : Option StackInfo)
    (halign : ∀ si, stack_info = some si →
      si.start % 4 = 0 ∧ (si.stop - si.start) % 4 = 0) :
    (Canary.install m uses_heap stack_info = .ok (none, m) ↔
      (stack_info = none ∨ uses_heap = true ∨
        ∃ si, stack_info = some si ∧
          si.stop - si.start < max paint_subroutine.size measure_subroutine.size)) ∧
    (∀ (ms : Bool) (oc : Option Canary),
      (∃ e, measureStackGate ms oc = .error e) ↔ (ms = true ∧ oc = none)) := by
  have hp12 : paint_subroutine.size = 12 := rfl
  have hm20 : measure_subroutine.size = 20 := rfl
  constructor
  · cases stack_info with
    | none => exact ⟨fun _ => Or.inl rfl, fun _ => rfl⟩
    | some si =>
      have hal := halign si rfl
      cases uses_heap with
      | true => exact ⟨fun _ => Or.inr (Or.inl rfl), fun _ => rfl⟩
      | false =>
        unfold Canary.install
        rw [prepare_aligned_eq si hal.1 hal.2]
        by_cases hlt : si.stop - si.start < paint_subroutine.size ∨
            si.stop - si.start < measure_subroutine.size
        · rw [if_pos hlt]
          refine ⟨fun _ => Or.inr (Or.inr ⟨si, rfl, ?_⟩), fun _ => rfl⟩
          rw [hp12, hm20] at hlt ⊢
          omega
        · rw [if_neg hlt]
          constructor
          · intro habs
            exact absurd habs (by simp)
          · rintro (habs | habs | ⟨si2, hsi2, habs⟩)
            · exact absurd habs (by simp)
            · exact absurd habs (by simp)
            · rw [Option.some.injEq] at hsi2
              subst hsi2
              rw [hp12, hm20] at hlt habs
              omega
  · intro ms oc
    cases ms with
    | false => simp [measureStackGate]
    | true =>
      cases oc with
      | none => simp [measureStackGate]
      | some c => simp [measureStackGate]

/-- Witness for C4 at a concrete input: a known, aligned, heap-free stack of
16 bytes is too small for the 20-byte measure subroutine, so installation
returns `None`; and `--measure-stack` with a `None` canary is fatal. -/
theorem c4_witness :
    Canary.install memAA false (some ⟨0, 16, false⟩) = .ok (none, memAA) ∧
    (∃ e, measureStackGate true none = .error e) := by
  have h := c4_install_none_iff memAA false (some ⟨0, 16, false⟩)
    (by intro si hsi; injection hsi with hsi; subst hsi; exact ⟨rfl, rfl⟩)
  exact ⟨h.1.mpr (Or.inr (Or.inr ⟨⟨0, 16, false⟩, rfl, by decide⟩)),
    (h.2 true none).mpr ⟨rfl, rfl⟩⟩

/-- Claim C10 (amended): the alignment of the stack region is enforced by a
panicking assertion for every stack region that reaches the checks — that
is, when the stack region is known and the heap is not in use; every
`Canary` the installer returns has 4-byte-aligned address and size, and both
subroutine blobs have sizes that are multiples of 4.  (When the heap is in
use, install returns `None` before the asserts, even for misaligned
regions.) -/
theorem c10_alignment_asserts (m : Mem) (stack_info : Option StackInfo) :
    (∀ si, stack_info = some si →
      (si.start % 4 ≠ 0 ∨ (si.stop - si.start) % 4 ≠ 0) →
      ∃ e, Canary.install m false stack_info = .error e) ∧
    (∀ (uses_heap : Bool) (c : Canary) (m1 : Mem),
      Canary.install m uses_heap stack_info = .ok (some c, m1) →
      c.addr % 4 = 0 ∧ c.size % 4 = 0) ∧
    paint_subroutine.size % 4 = 0 ∧ measure_subroutine.size % 4 = 0 := by
  refine ⟨?_, ?_, by decide, by decide⟩
  · intro si hsi hmis
    subst hsi
    obtain ⟨e, he⟩ := assert_subroutines_misaligned si.start (si.stop - si.start) hmis
    refine ⟨e, ?_⟩
    unfold Canary.install
    have hprep : Canary.prepare false (some si) = .error e := by
      show (match Canary.assert_subroutines si.start (si.stop - si.start) with
        | Except.error e2 => Except.error e2
        | Except.ok none => Except.ok none
        | Except.ok (some _) => Except.ok (some (Canary.mk si.start si.data_below_stack
            (si.stop - si.start) (((si.stop - si.start : Nat) : ℚ) / 1024)))) = _
      rw [he]
    rw [hprep]
  · intro uses_heap c m1 h
    cases stack_info with
    | none => exact absurd h (by simp [Canary.install, Canary.prepare])
    | some si =>
      cases uses_heap with
      | true => exact absurd h (by simp [Canary.install, Canary.prepare])
      | false =>
        unfold Canary.install at h
        cases hassert : Canary.assert_subroutines si.start (si.stop - si.start) with
        | error e =>
          have hprep : Canary.prepare false (some si) = .error e := by
            show (match Canary.assert_subroutines si.start (si.stop - si.start) with
              | Except.error e2 => Except.error e2
              | Except.ok none => Except.ok none
              | Except.ok (some _) => Except.ok (some (Canary.mk si.start si.data_below_stack
                  (si.stop - si.start) (((si.stop - si.start : Nat) : ℚ) / 1024)))) = _
            rw [hassert]
          rw [hprep] at h
          exact absurd h (by simp)
        | ok res =>
          cases res with
          | none =>
            have hprep : Canary.prepare false (some si) = .ok none := by
              show (match Canary.assert_subroutines si.start (si.stop - si.start) with
                | Except.error e2 => Except.error e2
                | Except.ok none => Except.ok none
                | Except.ok (some _) => Except.ok (some (Canary.mk si.start si.data_below_stack
                    (si.stop - si.start) (((si.stop - si.start : Nat) : ℚ) / 1024)))) = _
              rw [hassert]
            rw [hprep] at h
            exact absurd h (by simp)
          | some u =>
            have hprep : Canary.prepare false (some si) =
                .ok (some ⟨si.start, si.data_below_stack, si.stop - si.start,
                  ((si.stop - si.start : Nat) : ℚ) / 1024⟩) := by
              show (match Canary.assert_subroutines si.start (si.stop - si.start) with
                | Except.error e2 => Except.error e2
                | Except.ok none => Except.ok none
                | Except.ok (some _) => Except.ok (some (Canary.mk si.start si.data_below_stack
                    (si.stop - si.start) (((si.stop - si.start : Nat) : ℚ) / 1024)))) = _
              rw [hassert]
            rw [hprep] at h
            have hc : c = ⟨si.start, si.data_below_stack, si.stop - si.start,
                ((si.stop - si.start : Nat) : ℚ) / 1024⟩ := by
              have := (Except.ok.injEq _ _).mp h
              exact ((Prod.mk.injEq _ _ _ _).mp this).1.symm |> Option.some.inj
            obtain ⟨ha, hs⟩ := assert_subroutines_ok_some _ _ u hassert
            rw [hc]
            exact ⟨ha, hs⟩

/-- Claim C10 counterexample: for a heap-using program, `Canary::install`
returns `None` without panicking even though the stack region (base `1`,
size `4`) is not 4-byte aligned — the claim that it panics for every
misaligned stack region is false. -/
theorem c10_counterexample :
    Canary.install mem0 true (some ⟨1, 5, false⟩) = .ok (none, mem0) ∧
    (1 : Nat) % 4 ≠ 0 :=
  ⟨rfl, by decide⟩

/-- Witness for C10 at a concrete input: a misaligned stack region that
reaches the checks (no heap) makes installation panic. -/
theorem c10_witness :
    ∃ e, Canary.install mem0 false (some ⟨1, 5, false⟩) = .error e :=
  (c10_alignment_asserts mem0 (some ⟨1, 5, false⟩)).1 ⟨1, 5, false⟩ rfl
    (Or.inl (by decide))

/-- Claim C1 (amended): `Canary::measure` takes the warning branch exactly
when `pct > 90`, and its returned overflow verdict equals that same
condition `pct > 90` alone — `data_below_stack` does not enter the returned
value (it only selects an extra warning). -/
theorem c1_measure_verdict (c : Canary) (sp : Nat) (m : Mem)
    (touched : Option Nat) (m1 : Mem)
    (h : measure_subroutine.execute m c.addr c.size = .ok (touched, m1)) :
    Canary.measure c sp m =
      .ok ⟨decide (stackPct c (stackUsage sp touched) > 90),
           decide (stackPct c (stackUsage sp touched) > 90)⟩ := by
  unfold Canary.measure
  rw [h]
  show (if stackPct c (stackUsage sp touched) > 90
    then (Except.ok ⟨true, true⟩ : Except String MeasureReport)
    else Except.ok ⟨false, false⟩) = _
  by_cases hp : stackPct c (stackUsage sp touched) > 90
  · rw [if_pos hp, decide_eq_true hp]
  · rw [if_neg hp, decide_eq_false hp]

/-- The concrete canary used to refute claim C1: 1 KiB stack at address 0
with no data below the stack. -/
def cexCanary : Canary := ⟨0, false, 1024, 1⟩

/-- Claim C1 counterexample: on all-zero RAM the measured usage is 100 %
(`pct > 90`) while `data_below_stack = false`, yet `measure` returns `true`
— the claim that it returns `pct > 90 ∧ data_below_stack` (hence `false`
here) is refuted. -/
theorem c1_counterexample :
    Canary.measure cexCanary 1024 mem0 = .ok ⟨true, true⟩ ∧
    cexCanary.data_below_stack = false ∧
    stackPct cexCanary (stackUsage 1024 (some 0)) > 90 := by
  have hpct : stackPct cexCanary (stackUsage 1024 (some 0)) > 90 := by
    norm_num [stackPct, stackUsage, cexCanary]
  refine ⟨?_, rfl, hpct⟩
  unfold Canary.measure
  have hex : measure_subroutine.execute mem0 cexCanary.addr cexCanary.size =
      .ok (some 0, mem0) := rfl
  rw [hex]
  show (if stackPct cexCanary (stackUsage 1024 (some 0)) > 90
    then (Except.ok ⟨true, true⟩ : Except String MeasureReport)
    else Except.ok ⟨false, false⟩) = _
  rw [if_pos hpct]

/-- Witness for C1 at a concrete input: with `data_below_stack = true` and
the stack fully used, measure warns and returns `true`. -/
theorem c1_witness :
    Canary.measure ⟨0, true, 1024, 1⟩ 2048 mem0 = .ok ⟨true, true⟩ := by
  rw [c1_measure_verdict ⟨0, true, 1024, 1⟩ 2048 mem0 (some 0) mem0 rfl]
  have hpct : stackPct ⟨0, true, 1024, 1⟩ (stackUsage 2048 (some 0)) > 90 := by
    norm_num [stackPct, stackUsage]
  rw [decide_eq_true hpct]

/-! ### RTT mode-switch bit manipulation -/

lemma mode_bits (w : Nat) (hw : w < 2 ^ 32) :
    ((w &&& (2 ^ 32 - 1 - MODE_MASK)) ||| MODE_BLOCK_IF_FULL) % 4 = 2 ∧
    ((w &&& (2 ^ 32 - 1 - MODE_MASK)) ||| MODE_BLOCK_IF_FULL) / 4 = w / 4 ∧
    ((w &&& (2 ^ 32 - 1 - MODE_MASK)) ||| MODE_BLOCK_IF_FULL) < 2 ^ 32 := by
  have hMM : (2 ^ 32 - 1 - MODE_MASK : Nat) = 4294967292 := by
    unfold MODE_MASK
    norm_num
  have hBF : MODE_BLOCK_IF_FULL = 2 := rfl
  rw [hMM, hBF]
  have hdiv : (w &&& 4294967292 ||| 2) / 4 = w / 4 := by
    have s1 : (w &&& 4294967292 ||| 2) / 4 = ((w &&& 4294967292 ||| 2) / 2) / 2 := by
      rw [Nat.div_div_eq_div_mul]
    have s2 : ((w &&& 4294967292 ||| 2) / 2) / 2 =
        ((w &&& 4294967292) / 2 ||| 2 / 2) / 2 := by rw [Nat.or_div_two]
    have s3 : ((w &&& 4294967292) / 2 ||| 1) / 2 =
        ((w &&& 4294967292) / 2 / 2 ||| 1 / 2) := by rw [Nat.or_div_two]
    have s4 : (w &&& 4294967292) / 2 / 2 = w / 2 / 2 &&& 4294967292 / 2 / 2 := by
      rw [Nat.and_div_two, Nat.and_div_two]
    have s5 : w / 2 / 2 &&& 1073741823 = w / 4 % 2 ^ 30 := by
      have : (1073741823 : Nat) = 2 ^ 30 - 1 := by norm_num
      rw [Nat.div_div_eq_div_mul, this]
      exact Nat.and_pow_two_sub_one_eq_mod (w / 4) 30
    have s6 : w / 4 % 2 ^ 30 = w / 4 := Nat.mod_eq_of_lt (by omega)
    rw [s1, s2]
    norm_num at s4 ⊢
    rw [s3, s4]
    norm_num
    rw [s5, s6]
  refine ⟨?_, hdiv, ?_⟩
  · have e1 : (w &&& 4294967292) % 2 = 0 := by
      have h2 : ¬((w &&& 4294967292) % 2 = 1) := by
        rw [Nat.and_mod_two_eq_one]
        rintro ⟨-, habs⟩
        norm_num at habs
      omega
    have e2 : (w &&& 4294967292 ||| 2) % 2 = 0 := by
      have h2 : ¬((w &&& 4294967292 ||| 2) % 2 = 1) := by
        rw [Nat.or_mod_two_eq_one]
        rintro (habs | habs) <;> omega
      omega
    have e3 : (w &&& 4294967292 ||| 2) / 2 % 2 = 1 := by
      rw [Nat.or_div_two]
      rw [Nat.or_mod_two_eq_one]
      right
      norm_num
    omega
  · refine Nat.or_lt_two_pow (lt_of_le_of_lt Nat.and_le_left hw) (by norm_num)

/-- Claim C5: `set_rtt_to_blocking` sets a breakpoint on `main`, runs to it,
reads the 32-bit up-channel-flags word at the RTT control block + 44, writes
it back with the low two bits set to 2 (block-if-full) and the upper 30 bits
unchanged, touches no other memory, and net removes the `main` breakpoint —
in exactly that order of probe operations. -/
theorem c5_rtt_mode_switch (core : RttCore) (main_fn_address rtt_buffer_address : Nat) :
    (setRttToBlocking core main_fn_address rtt_buffer_address).1.mem
        (rtt_buffer_address + RTT_FLAGS_OFFSET) % 4 = 2 ∧
    (setRttToBlocking core main_fn_address rtt_buffer_address).1.mem
        (rtt_buffer_address + RTT_FLAGS_OFFSET) / 4 =
      core.mem (rtt_buffer_address + RTT_FLAGS_OFFSET) % 2 ^ 32 / 4 ∧
    (setRttToBlocking core main_fn_address rtt_buffer_address).1.mem
        (rtt_buffer_address + RTT_FLAGS_OFFSET) < 2 ^ 32 ∧
    (∀ x, x ≠ rtt_buffer_address + RTT_FLAGS_OFFSET →
      (setRttToBlocking core main_fn_address rtt_buffer_address).1.mem x = core.mem x) ∧
    (setRttToBlocking core main_fn_address rtt_buffer_address).1.bps = core.bps ∧
    (setRttToBlocking core main_fn_address rtt_buffer_address).2 =
      [.setBp main_fn_address, .run, .waitHalted,
       .readWord (rtt_buffer_address + RTT_FLAGS_OFFSET)
         (core.mem (rtt_buffer_address + RTT_FLAGS_OFFSET) % 2 ^ 32),
       .writeWord (rtt_buffer_address + RTT_FLAGS_OFFSET)
         ((setRttToBlocking core main_fn_address rtt_buffer_address).1.mem
           (rtt_buffer_address + RTT_FLAGS_OFFSET)),
       .clearBp main_fn_address] := by
  have hmem : (setRttToBlocking core main_fn_address rtt_buffer_address).1.mem
      (rtt_buffer_address + RTT_FLAGS_OFFSET) =
      ((core.mem (rtt_buffer_address + RTT_FLAGS_OFFSET) % 2 ^ 32) &&&
        (2 ^ 32 - 1 - MODE_MASK)) ||| MODE_BLOCK_IF_FULL := by
    show (if rtt_buffer_address + RTT_FLAGS_OFFSET = rtt_buffer_address + RTT_FLAGS_OFFSET
      then ((core.mem (rtt_buffer_address + RTT_FLAGS_OFFSET) % 2 ^ 32) &&&
        (2 ^ 32 - 1 - MODE_MASK)) ||| MODE_BLOCK_IF_FULL
      else core.mem (rtt_buffer_address + RTT_FLAGS_OFFSET)) = _
    rw [if_pos rfl]
  obtain ⟨h1, h2, h3⟩ := mode_bits
    (core.mem (rtt_buffer_address + RTT_FLAGS_OFFSET) % 2 ^ 32)
    (Nat.mod_lt _ (by norm_num))
  refine ⟨by rw [hmem]; exact h1, by rw [hmem]; exact h2, by rw [hmem]; exact h3,
    ?_, ?_, ?_⟩
  · intro x hx
    show (if x = rtt_buffer_address + RTT_FLAGS_OFFSET then _ else core.mem x) = core.mem x
    rw [if_neg hx]
  · show (main_fn_address :: core.bps).erase main_fn_address = core.bps
    exact List.erase_cons_head main_fn_address core.bps
  · rw [hmem]
    exact rfl

/-- The concrete core used for the C5 witness: all-ones RAM words, no
breakpoints installed. -/
def c5core : RttCore := ⟨fun _ => 0xFFFFFFFF, []⟩

/-- Witness for C5 at a concrete input: after the mode switch the flags word
at offset 44 has mode bits `2`, and an unrelated address is untouched. -/
theorem c5_witness :
    (setRttToBlocking c5core 100 0).1.mem 44 % 4 = 2 ∧
    (setRttToBlocking c5core 100 0).1.mem 7 = c5core.mem 7 :=
  ⟨(c5_rtt_mode_switch c5core 100 0).1,
   (c5_rtt_mode_switch c5core 100 0).2.2.2.1 7 (by decide)⟩

/-! ### Measure-subroutine characterization -/

lemma readByte_writeBytes_out (bs : List Nat) (m : Mem) (a x : Nat)
    (h : x < a ∨ a + bs.length ≤ x) :
    readByte (writeBytes m a bs) x = readByte m x := by
  unfold readByte
  rw [writeBytes_out bs m a x h]

lemma readByte_writeBytes_in (bs : List Nat) (m : Mem) (a i : Nat)
    (hi : i < bs.length) :
    readByte (writeBytes m a bs) (a + i) = bs.getD i 0 % 256 := by
  unfold readByte
  rw [writeBytes_in bs m a i hi]

lemma search_with_probe_eq_none_iff (m : Mem) (low_addr : Nat) :
    measure_subroutine.search_with_probe m low_addr = none ↔
      ∀ i < measure_subroutine.SUBROUTINE.length,
        readByte m (low_addr + i) = CANARY_U8 := by
  unfold measure_subroutine.search_with_probe
  rw [Option.map_eq_none', position_eq_none_iff]
  constructor
  · intro h i hi
    have := h (readByte m (low_addr + i)) (by
      simp only [bytesAt, List.mem_map, List.mem_range]
      exact ⟨i, hi, rfl⟩)
    simpa using this
  · intro h b hb
    simp only [bytesAt, List.mem_map, List.mem_range] at hb
    obtain ⟨i, hi, rfl⟩ := hb
    simpa using h i hi

lemma search_with_probe_eq_some (m : Mem) (low_addr a : Nat)
    (h : measure_subroutine.search_with_probe m low_addr = some a) :
    ∃ i, i < measure_subroutine.SUBROUTINE.length ∧ a = low_addr + i ∧
      readByte m (low_addr + i) ≠ CANARY_U8 ∧
      ∀ j < i, readByte m (low_addr + j) = CANARY_U8 := by
  unfold measure_subroutine.search_with_probe at h
  rw [Option.map_eq_some'] at h
  obtain ⟨i, hpos, rfl⟩ := h
  obtain ⟨hlen, hp, hleast⟩ := position_eq_some _ _ _ hpos
  rw [bytesAt_length] at hlen
  rw [bytesAt_getD _ _ _ _ hlen] at hp
  refine ⟨i, hlen, rfl, by simpa using hp, ?_⟩
  intro j hj
  have := hleast j hj
  rw [bytesAt_getD _ _ _ _ (by omega)] at this
  simpa using this

lemma search_with_probe_eq_some_of (m : Mem) (low_addr i : Nat)
    (hi : i < measure_subroutine.SUBROUTINE.length)
    (hmis : readByte m (low_addr + i) ≠ CANARY_U8)
    (hleast : ∀ j < i, readByte m (low_addr + j) = CANARY_U8) :
    measure_subroutine.search_with_probe m low_addr = some (low_addr + i) := by
  unfold measure_subroutine.search_with_probe
  rw [position_eq_some_of _ _ i (by rw [bytesAt_length]; exact hi)
    (by rw [bytesAt_getD _ _ _ _ hi]; simpa using hmis)
    (fun j hj => by rw [bytesAt_getD _ _ _ _ (by omega)]; simpa using hleast j hj)]
  rfl

lemma measure_execute_of_search_some (m : Mem) (addr size a : Nat)
    (hs : measure_subroutine.search_with_probe m addr = some a) :
    measure_subroutine.execute m addr size = .ok (some a, m) := by
  unfold measure_subroutine.execute
  rw [hs]

lemma measure_execute_of_search_none (m : Mem) (addr size : Nat)
    (hs : measure_subroutine.search_with_probe m addr = none) :
    measure_subroutine.execute m addr size =
      match measure_subroutine.get_result (writeBytes m addr measure_subroutine.SUBROUTINE)
        (measureLoop (writeBytes m addr measure_subroutine.SUBROUTINE)
          (addr + measure_subroutine.size) (addr + size)) with
      | .ok res => .ok (res, writeBytes m addr measure_subroutine.SUBROUTINE)
      | .error e => .error e := by
  unfold measure_subroutine.execute
  rw [hs]

lemma getD_word_list (m : Mem) (r0 : Nat) :
    ∀ i < 4, [readByte m r0, readByte m (r0 + 1), readByte m (r0 + 2),
      readByte m (r0 + 3)].getD i 0 = readByte m (r0 + i)
  | 0, _ => rfl
  | 1, _ => rfl
  | 2, _ => rfl
  | 3, _ => rfl
  | n + 4, h => absurd h (by omega)

lemma get_result_zero (m : Mem) : measure_subroutine.get_result m 0 = .ok none := rfl

lemma get_result_pos_of_byte (m : Mem) (r0 off : Nat) (h0 : r0 ≠ 0) (hoff : off < 4)
    (hmis : readByte m (r0 + off) ≠ CANARY_U8)
    (hleast : ∀ j < off, readByte m (r0 + j) = CANARY_U8) :
    measure_subroutine.get_result m r0 = .ok (some (r0 + off)) := by
  unfold measure_subroutine.get_result
  rw [if_neg h0, wordLeBytes_readWord]
  rw [position_eq_some_of _ _ off (by simp; omega)
    (by rw [getD_word_list m r0 off hoff]; simpa using hmis)
    (fun j hj => by
      rw [getD_word_list m r0 j (by omega)]
      simpa using hleast j hj)]

lemma get_result_pos (m : Mem) (r0 : Nat) (h0 : r0 ≠ 0)
    (hword : readWord m r0 ≠ CANARY_U32) :
    ∃ off, off < 4 ∧ measure_subroutine.get_result m r0 = .ok (some (r0 + off)) ∧
      readByte m (r0 + off) ≠ CANARY_U8 := by
  by_cases b0 : readByte m r0 = CANARY_U8
  · by_cases b1 : readByte m (r0 + 1) = CANARY_U8
    · by_cases b2 : readByte m (r0 + 2) = CANARY_U8
      · have b3 : readByte m (r0 + 3) ≠ CANARY_U8 := fun hb3 =>
          hword ((readWord_eq_canary_iff m r0).mpr ⟨b0, b1, b2, hb3⟩)
        refine ⟨3, by omega, ?_, b3⟩
        refine get_result_pos_of_byte m r0 3 h0 (by omega) b3 ?_
        intro j hj
        match j, hj with
        | 0, _ => exact b0
        | 1, _ => exact b1
        | 2, _ => exact b2
      · refine ⟨2, by omega, ?_, b2⟩
        refine get_result_pos_of_byte m r0 2 h0 (by omega) b2 ?_
        intro j hj
        match j, hj with
        | 0, _ => exact b0
        | 1, _ => exact b1
    · refine ⟨1, by omega, ?_, b1⟩
      refine get_result_pos_of_byte m r0 1 h0 (by omega) b1 ?_
      intro j hj
      match j, hj with
      | 0, _ => exact b0
  · refine ⟨0, by omega, ?_, b0⟩
    refine get_result_pos_of_byte m r0 0 h0 (by omega) b0 ?_
    intro j hj
    exact absurd hj (by omega)

/-- After `paint_subroutine::execute`, every byte of `[addr, addr + size)`
reads as the canary value: the blob painted everything above its own 12
bytes, and the host then overwrote those 12 bytes through the probe. -/
lemma paint_execute_painted (m : Mem) (addr size : Nat) :
    ∀ i < size, readByte (paint_subroutine.execute m addr size) (addr + i) = CANARY_U8 := by
  have h12 : paint_subroutine.size = 12 := rfl
  have hlen : paint_subroutine.SUBROUTINE.length = 12 := rfl
  intro i hi
  unfold paint_subroutine.execute paint_subroutine.overwrite_subroutine
  by_cases hlow : i < 12
  · rw [readByte_writeBytes_in _ _ _ _ (by simp [hlen]; omega),
      replicate_getD _ _ _ (by simp [hlen]; omega)]
    rfl
  · rw [readByte_writeBytes_out _ _ _ _ (Or.inr (by simp [hlen]; omega))]
    unfold readByte
    rw [paintLoop_covers (addr + size + 1 - (addr + paint_subroutine.size)) _ _ _ _
      (le_refl _) (by rw [h12]; omega) (by omega)]
    rfl

/-- The core inverse property behind claim C6: measuring reports an
untouched stack exactly when every byte of `[addr, addr + size)` still holds
the canary value. -/
lemma measure_ok_none_iff_untouched (m : Mem) (addr size : Nat)
    (hdvd : 4 ∣ size) (hsz : measure_subroutine.size ≤ size) :
    (measure_subroutine.execute m addr size).map Prod.fst = .ok none ↔
      ∀ i < size, readByte m (addr + i) = CANARY_U8 := by
  have h20 : measure_subroutine.size = 20 := rfl
  have hlen : measure_subroutine.SUBROUTINE.length = 20 := rfl
  have hsz20 : 20 ≤ size := by omega
  obtain ⟨q, hq⟩ := hdvd
  cases hs : measure_subroutine.search_with_probe m addr with
  | some a =>
    rw [measure_execute_of_search_some m addr size a hs]
    obtain ⟨i, hi20, rfl, hmis, -⟩ := search_with_probe_eq_some m addr _ hs
    rw [hlen] at hi20
    constructor
    · intro habs
      exact absurd habs (by simp [Except.map])
    · intro hall
      exact absurd (hall i (by omega)) hmis
  | none =>
    have hall20 : ∀ i < 20, readByte m (addr + i) = CANARY_U8 := by
      intro i hi
      exact (search_with_probe_eq_none_iff m addr).mp hs i (by omega)
    rw [measure_execute_of_search_none m addr size hs, h20]
    have hagree : ∀ x, addr + 20 ≤ x →
        readByte (writeBytes m addr measure_subroutine.SUBROUTINE) x = readByte m x := by
      intro x hx
      exact readByte_writeBytes_out _ _ _ _ (Or.inr (by omega))
    have hagreeW : ∀ x, addr + 20 ≤ x →
        readWord (writeBytes m addr measure_subroutine.SUBROUTINE) x = readWord m x := by
      intro x hx
      unfold readWord
      rw [hagree x hx, hagree _ (by omega), hagree _ (by omega), hagree _ (by omega)]
    rcases measureLoop_cases (addr + size - (addr + 20))
        (writeBytes m addr measure_subroutine.SUBROUTINE) (addr + 20) (addr + size)
        (le_refl _) with hz | ⟨k, hkeq, hklt, hkw⟩
    · rw [hz, get_result_zero]
      constructor
      · intro _
        intro i hi
        by_cases hi20 : i < 20
        · exact hall20 i hi20
        · have hec := (measureLoop_eq_zero_iff (addr + size - (addr + 20))
            (writeBytes m addr measure_subroutine.SUBROUTINE) (addr + 20) (addr + size)
            (le_refl _) (by omega)).mp hz
          set k2 := (i - 20) / 4 with hk2
          set r := (i - 20) % 4 with hr
          have hword := hec k2 (by omega)
          have hbytes := (readWord_eq_canary_iff _ _).mp hword
          have hx : addr + i = addr + 20 + 4 * k2 + r := by omega
          have hbyte : readByte (writeBytes m addr measure_subroutine.SUBROUTINE)
              (addr + i) = CANARY_U8 := by
            rw [hx]
            have hr4 : r = 0 ∨ r = 1 ∨ r = 2 ∨ r = 3 := by omega
            rcases hr4 with h | h | h | h <;> rw [h]
            · exact hbytes.1
            · exact hbytes.2.1
            · exact hbytes.2.2.1
            · exact hbytes.2.2.2
          rw [← hagree (addr + i) (by omega)]
          exact hbyte
      · intro _
        rfl
    · rw [hkeq]
      obtain ⟨off, hoff4, hgr, hgb⟩ := get_result_pos _ (addr + 20 + 4 * k)
        (by omega) hkw
      rw [hgr]
      constructor
      · intro habs
        exact absurd habs (by simp [Except.map])
      · intro hall
        have hin : addr + 20 + 4 * k + off < addr + size := by omega
        have := hall (20 + 4 * k + off) (by omega)
        rw [show addr + (20 + 4 * k + off) = addr + 20 + 4 * k + off by omega] at this
        rw [← hagree (addr + 20 + 4 * k + off) (by omega)] at this
        exact (hgb this).elim

/-- Claim C6: `Canary::install` and `Canary::measure` are inverses on an
untouched stack — measuring reports zero usage (`touched_address = None`)
iff no byte of `[addr, addr + size)` differs from the canary value; in
particular a measure right after paint (which also repaints the 12
subroutine bytes) reports the stack untouched. -/
theorem c6_paint_measure_inverse (m : Mem) (addr size : Nat)
    (hdvd : 4 ∣ size) (hsz : measure_subroutine.size ≤ size) :
    ((measure_subroutine.execute m addr size).map Prod.fst = .ok none ↔
      ∀ i < size, readByte m (addr + i) = CANARY_U8) ∧
    (measure_subroutine.execute (paint_subroutine.execute m addr size) addr size).map
      Prod.fst = .ok none ∧
    ∀ sp : Nat, stackUsage sp none = 0 :=
  ⟨measure_ok_none_iff_untouched m addr size hdvd hsz,
   (measure_ok_none_iff_untouched (paint_subroutine.execute m addr size) addr size
     hdvd hsz).mpr (paint_execute_painted m addr size),
   fun _ => rfl⟩

/-- Witness for C6 at a concrete input: painting a 24-byte stack and then
measuring it reports it untouched. -/
theorem c6_witness :
    (measure_subroutine.execute (paint_subroutine.execute mem0 0 24) 0 24).map
      Prod.fst = .ok none :=
  (c6_paint_measure_inverse mem0 0 24 (by decide) (by decide)).2.1

/-- Memory after `execute_subroutine` has written the measure blob. -/
def measureBlobMem (m : Mem) (addr : Nat) : Mem :=
  writeBytes m addr measure_subroutine.SUBROUTINE

/-- The value the measure blob leaves in `r0`: the address of the lowest
canary word that no longer holds the pattern, or `0`. -/
def measureBlobResult (m : Mem) (addr size : Nat) : Nat :=
  measureLoop (measureBlobMem m addr) (addr + measure_subroutine.size) (addr + size)

/-- Claim C7: canary measurement proceeds host-scan-first — if some byte of
the 20-byte window at `addr` differs from the canary value, `execute`
returns the lowest such address with memory unchanged (the subroutine is
never written or run); otherwise the subroutine runs, `r0 = 0` is treated as
"stack untouched", and a nonzero `r0` yields `r0` plus the index of the
lowest byte of the word at `r0` that differs from the canary value. -/
theorem c7_measure_procedure (m : Mem) (addr size : Nat) :
    (∀ i, i < measure_subroutine.size → readByte m (addr + i) ≠ CANARY_U8 →
      (∀ j < i, readByte m (addr + j) = CANARY_U8) →
      measure_subroutine.execute m addr size = .ok (some (addr + i), m)) ∧
    ((∀ i < measure_subroutine.size, readByte m (addr + i) = CANARY_U8) →
      (measureBlobResult m addr size = 0 →
        measure_subroutine.execute m addr size = .ok (none, measureBlobMem m addr)) ∧
      (∀ off, off < 4 → measureBlobResult m addr size ≠ 0 →
        readByte (measureBlobMem m addr) (measureBlobResult m addr size + off) ≠
          CANARY_U8 →
        (∀ j < off, readByte (measureBlobMem m addr)
          (measureBlobResult m addr size + j) = CANARY_U8) →
        measure_subroutine.execute m addr size =
          .ok (some (measureBlobResult m addr size + off), measureBlobMem m addr))) := by
  constructor
  · intro i hi hmis hleast
    exact measure_execute_of_search_some m addr size _
      (search_with_probe_eq_some_of m addr i hi hmis hleast)
  · intro hall
    have hs : measure_subroutine.search_with_probe m addr = none :=
      (search_with_probe_eq_none_iff m addr).mpr (fun i hi => hall i hi)
    constructor
    · intro hz
      rw [measure_execute_of_search_none m addr size hs]
      unfold measureBlobResult measureBlobMem at hz
      rw [hz, get_result_zero]
      exact rfl
    · intro off hoff4 hne hmis hleast
      rw [measure_execute_of_search_none m addr size hs]
      have hgr := get_result_pos_of_byte (measureBlobMem m addr)
        (measureBlobResult m addr size) off hne hoff4 hmis hleast
      unfold measureBlobResult measureBlobMem at hgr
      rw [hgr]
      exact rfl

/-- Witness for C7 at a concrete input: on all-zero RAM the host scan finds
the mismatch at the very first byte and returns its address with memory
untouched. -/
theorem c7_witness :
    measure_subroutine.execute mem0 0 1024 = .ok (some 0, mem0) :=
  (c7_measure_procedure mem0 0 1024).1 0 (by decide) (by decide)
    (fun j hj => absurd hj (by omega))

end ProbeRun
